import Mathlib

/-
  Verification development for the reaction-orchestrator repository.

  Each module of the source is shallowly embedded as pure Lean functions over
  explicit store states (SQLite tables become lists of rows, wall-clock time
  becomes an explicit Nat argument in seconds, random draws become explicit
  oracle arguments constrained by hypotheses).  Timestamps stored as ISO text
  in the source compare chronologically, so they are modelled as Nat seconds;
  the REAL priority column is only ever written integral values, so it is
  modelled as Int.
-/

set_option maxHeartbeats 1000000

namespace JobStore

/-- Status column of the jobs table: queued, reserved, done or dead. -/
inductive JStatus
  | queued
  | reserved
  | done
  | dead
deriving DecidableEq, Repr

/-- One row of the jobs table (job_store.py SCHEMA). -/
structure Job where
  id : Nat
  type : String
  chat_id : Int
  msg_id : Option Int
  emoji : Option String
  priority : Int
  status : JStatus
  reserved_by : Option String
  reserved_at : Option Nat
  attempts : Nat
  not_before : Option Nat
  created_at : Nat
  session_name : Option String
deriving DecidableEq, Repr

/-- The not_before gate of reserve_next: not_before IS NULL OR not_before <= now. -/
def notBeforeElapsed (now : Nat) (j : Job) : Bool :=
  match j.not_before with
  | none => true
  | some t => decide (t ≤ now)

/-- The WHERE clause of the picked CTE in reserve_next. -/
def isEligible (now : Nat) (j : Job) : Bool :=
  j.status == JStatus.queued && notBeforeElapsed now j

/-- ORDER BY priority ASC, created_at ASC, as a reflexive total order on rows. -/
def keyLe (a b : Job) : Bool :=
  a.priority < b.priority || (a.priority == b.priority && a.created_at ≤ b.created_at)

/-- First row of the list that is minimal for keyLe (the LIMIT 1 pick). -/
def pickMin : List Job → Option Job
  | [] => none
  | j :: rest =>
    match pickMin rest with
    | none => some j
    | some m => if keyLe j m then some j else some m

/-- The row produced by the UPDATE of reserve_next for the picked job. -/
def reserveRow (w : String) (now : Nat) (j : Job) : Job :=
  { j with status := JStatus.reserved, reserved_by := some w, reserved_at := some now }

/-- reserve_next (job_store.py lines 277-294): pick the lowest-priority,
earliest-created queued row whose not_before elapsed, mark it reserved with
lease metadata, and return it; returns none and leaves the table unchanged
when no row qualifies. -/
def reserve_next (db : List Job) (worker_id : String) (now : Nat) :
    Option Job × List Job :=
  match pickMin (db.filter (isEligible now)) with
  | none => (none, db)
  | some p =>
    (some (reserveRow worker_id now p),
     db.map fun j => if j.id = p.id then reserveRow worker_id now p else j)

/-- The WHERE clause of requeue_expired: reserved rows whose lease is at least
ttl seconds old. -/
def leaseExpired (now ttl : Nat) (j : Job) : Bool :=
  j.status == JStatus.reserved &&
    (match j.reserved_at with
     | none => false
     | some t => decide (t + ttl ≤ now))

/-- requeue_expired (job_store.py lines 270-275): sweep expired reserved rows
back to queued, clearing the lease columns. -/
def requeue_expired (db : List Job) (now ttl_sec : Nat) : List Job :=
  db.map fun j =>
    if leaseExpired now ttl_sec j then
      { j with status := JStatus.queued, reserved_by := none, reserved_at := none }
    else j

/-- The row written by fail_and_maybe_requeue once attempts has been bumped. -/
def failRow (max_attempts backoff_sec now : Nat) (j : Job) : Job :=
  if max_attempts ≤ j.attempts + 1 then
    { j with status := JStatus.dead, attempts := j.attempts + 1 }
  else
    { j with status := JStatus.queued, attempts := j.attempts + 1,
             reserved_by := none, reserved_at := none,
             not_before := some (now + backoff_sec) }

/-- fail_and_maybe_requeue (job_store.py lines 303-315): read the attempts of
the row with the given id, bump it, and either requeue with a backoff
not_before or mark dead when the bumped count reaches max_attempts; a missing
id is a no-op. -/
def fail_and_maybe_requeue (db : List Job) (job_id : Nat)
    (max_attempts backoff_sec now : Nat) : List Job :=
  match db.find? (fun j => j.id == job_id) with
  | none => db
  | some row =>
    db.map fun j =>
      if j.id = job_id then failRow max_attempts backoff_sec now row else j

/-- k successive fail_and_maybe_requeue calls on one job id, the i-th call
happening at wall-clock time times i. -/
def iterate_fail (db : List Job) (job_id : Nat) (max_attempts backoff_sec : Nat)
    (times : Nat → Nat) : Nat → List Job
  | 0 => db
  | k + 1 =>
    fail_and_maybe_requeue (iterate_fail db job_id max_attempts backoff_sec times k)
      job_id max_attempts backoff_sec (times k)

/-- Correctness predicate for reserve_next on one table state: when no queued
row is eligible the call returns none and leaves the table unchanged, and
otherwise exactly one row q changes, q is queued with not_before elapsed and
minimal for the ORDER BY key among all eligible rows, and the call returns its
reserved version. -/
def reserveSpec (db : List Job) (w : String) (now : Nat) : Prop :=
  (db.filter (isEligible now) = [] → reserve_next db w now = (none, db)) ∧
  (db.filter (isEligible now) ≠ [] →
    ∃ q l1 l2,
      db = l1 ++ q :: l2 ∧
      q.status = JStatus.queued ∧
      notBeforeElapsed now q = true ∧
      (∀ x ∈ db, isEligible now x = true → keyLe q x = true) ∧
      reserve_next db w now =
        (some (reserveRow w now q), l1 ++ reserveRow w now q :: l2))

/-- Correctness predicate for one fail_and_maybe_requeue call on a present row:
only that row changes, its attempts is bumped by one, and the bumped row is
requeued with not_before = now + backoff and a cleared lease when the bumped
count is below max_attempts, dead otherwise. -/
def failSingleSpec (db : List Job) (j : Job) (maxA backoff now : Nat) : Prop :=
  ∃ l1 l2, db = l1 ++ j :: l2 ∧
    fail_and_maybe_requeue db j.id maxA backoff now =
      l1 ++ failRow maxA backoff now j :: l2 ∧
    (failRow maxA backoff now j).attempts = j.attempts + 1 ∧
    (j.attempts + 1 < maxA →
      failRow maxA backoff now j =
        { j with status := JStatus.queued, attempts := j.attempts + 1,
                 reserved_by := none, reserved_at := none,
                 not_before := some (now + backoff) }) ∧
    (maxA ≤ j.attempts + 1 →
      failRow maxA backoff now j =
        { j with status := JStatus.dead, attempts := j.attempts + 1 })

/-- Correctness predicate for repeated fail_and_maybe_requeue calls on one job
starting from attempts = 0: after the k-th call the row holds attempts = k and
is dead exactly when k has reached max_attempts, so the first call that makes
it dead is the max_attempts-th and every later call leaves it dead. -/
def failIterSpec (db : List Job) (j : Job) (maxA backoff : Nat)
    (times : Nat → Nat) : Prop :=
  ∀ k, 1 ≤ k →
    ∃ r ∈ iterate_fail db j.id maxA backoff times k,
      r.id = j.id ∧ r.attempts = k ∧
      r.status = (if maxA ≤ k then JStatus.dead else JStatus.queued)

/-- Sample rows used by the witness theorems. -/
def wJob1 : Job :=
  { id := 1, type := "react", chat_id := 5, msg_id := some 9, emoji := some "a",
    priority := 2, status := JStatus.queued, reserved_by := none,
    reserved_at := none, attempts := 0, not_before := none, created_at := 3,
    session_name := none }

def wJob2 : Job :=
  { wJob1 with id := 2, priority := 1, not_before := some 50 }

def wDb : List Job := [wJob1, wJob2]

end JobStore

namespace BotManager

/-- One row of the actions table (BotManager.py _init_db).  The CREATE TABLE
statement declares no UNIQUE constraint or index on this table. -/
structure ActionRow where
  session_name : String
  action_type : String
  target_msg_id : Int
  chat_id : Int
  timestamp : Nat
  details : Option String
deriving DecidableEq, Repr

/-- log_action (BotManager.py lines 291-312): a plain INSERT appending one row
to the actions table. -/
def log_action (db : List ActionRow) (session_name action_type : String)
    (target_msg_id chat_id : Int) (now : Nat) (details : Option String) :
    List ActionRow :=
  db ++ [{ session_name := session_name, action_type := action_type,
           target_msg_id := target_msg_id, chat_id := chat_id,
           timestamp := now, details := details }]

/-- count_reactions_for_post (BotManager.py lines 314-322). -/
def count_reactions_for_post (db : List ActionRow) (chat_id msg_id : Int) : Nat :=
  (db.filter fun r =>
    r.chat_id == chat_id && r.target_msg_id == msg_id &&
      r.action_type == "reaction").length

/-- has_bot_reacted (BotManager.py lines 324-332). -/
def has_bot_reacted (db : List ActionRow) (session_name : String)
    (chat_id msg_id : Int) : Bool :=
  decide (0 < (db.filter fun r =>
    r.session_name == session_name && r.chat_id == chat_id &&
      r.target_msg_id == msg_id && r.action_type == "reaction").length)

/-- The rows of the log matching one (identity, chat, message, reaction) key,
the rows the claimed uniqueness constraint would bound by one. -/
def reactionKeyRows (db : List ActionRow) (session_name : String)
    (chat_id msg_id : Int) : List ActionRow :=
  db.filter fun r =>
    r.session_name == session_name && r.chat_id == chat_id &&
      r.target_msg_id == msg_id && r.action_type == "reaction"

/-- Action log after a first completed reaction was recorded. -/
def actLog1 : List ActionRow := log_action [] "s1" "reaction" 9 5 100 none

/-- Action log after the same completed reaction is recorded a second time. -/
def actLog2 : List ActionRow := log_action actLog1 "s1" "reaction" 9 5 200 none

/-- One row of the bots table (BotManager.py _init_db). -/
structure BotRow where
  session_name : String
  phone : Option String
  last_used : Option Nat
  is_banned : Bool
  is_frozen : Bool
  revoked : Bool
deriving DecidableEq, Repr

/-- One row of the bot_chat_access table (BotManager.py _init_db). -/
structure ChatAccessRow where
  session_name : String
  chat_id : Int
  status : String
  last_error : Option String
  updated_at : Nat
deriving DecidableEq, Repr

/-- eligible_bots_for_post (BotManager.py lines 186-211): active bots that
have not yet reacted to the post and have no blocking chat-access record. -/
def eligible_bots_for_post (bots : List BotRow) (actions : List ActionRow)
    (access : List ChatAccessRow) (chat_id msg_id : Int) : List String :=
  (bots.filter fun b =>
    !b.is_banned && !b.is_frozen && !b.revoked &&
    !(actions.any fun a =>
        a.session_name == b.session_name && a.chat_id == chat_id &&
          a.target_msg_id == msg_id && a.action_type == "reaction") &&
    !(access.any fun x =>
        x.session_name == b.session_name && x.chat_id == chat_id &&
          (x.status == "no_access" || x.status == "invite_invalid" ||
            x.status == "kicked" || x.status == "left"))).map (·.session_name)

end BotManager

namespace PostManager

/-- One row of the posts table (PostManager.py _init_db plus the migrated
columns).  The all_reactions column stores a JSON {emoji: count} object; it is
modelled as the parsed association list. -/
structure PostRow where
  msg_id : Int
  chat_id : Int
  text : String
  all_reactions : List (String × Int)
  target : Option Int
  blocked : Bool
  forced_emoji : Option String
deriving DecidableEq, Repr

/-- The WHERE chat_id=? AND msg_id=? key of the posts table. -/
def postKey (chat_id msg_id : Int) (r : PostRow) : Bool :=
  r.chat_id == chat_id && r.msg_id == msg_id

/-- Row transformer of the UPDATE posts SET target=? in get_or_set_target. -/
def targetRowSet (chat_id msg_id tgt : Int) (r : PostRow) : PostRow :=
  if postKey chat_id msg_id r then { r with target := some tgt } else r

/-- get_or_set_target (PostManager.py lines 163-180): return the stored target
when the row exists and its target is truthy (non-NULL and nonzero); otherwise
compute max(1, base_target + draw), where draw is the oracle outcome of
random.randint(-deviation, deviation), persist it for the post and return it.
The deviation argument only bounds the draw. -/
def get_or_set_target (posts : List PostRow) (chat_id msg_id : Int)
    (base_target : Int) (deviation : Nat) (draw : Int) : Int × List PostRow :=
  match posts.find? (postKey chat_id msg_id) with
  | some row =>
    match row.target with
    | some v =>
      if v ≠ 0 then (v, posts)
      else
        (max 1 (base_target + draw),
         posts.map (targetRowSet chat_id msg_id (max 1 (base_target + draw))))
    | none =>
      (max 1 (base_target + draw),
       posts.map (targetRowSet chat_id msg_id (max 1 (base_target + draw))))
  | none =>
    (max 1 (base_target + draw),
     posts.map (targetRowSet chat_id msg_id (max 1 (base_target + draw))))

/-- Sample posts table with one post that has no stored target yet. -/
def wPosts : List PostRow :=
  [{ msg_id := 9, chat_id := 5, text := "", all_reactions := [("a", 2)],
     target := none, blocked := false, forced_emoji := none }]

end PostManager

namespace Planner

open JobStore BotManager PostManager

/-- WHERE type='react' AND chat_id=? AND msg_id=? (any status). -/
def reactKeyAll (ch mid : Int) (j : Job) : Bool :=
  j.type == "react" && j.chat_id == ch && j.msg_id == some mid

/-- The stale rows deleted at the top of each post iteration of
rebuild_reaction_plan: queued react jobs of the post. -/
def reactQueued (ch mid : Int) (j : Job) : Bool :=
  reactKeyAll ch mid j && j.status == JStatus.queued

/-- status IN (queued, reserved) react jobs of the post. -/
def reactActive (ch mid : Int) (j : Job) : Bool :=
  reactKeyAll ch mid j && (j.status == JStatus.queued || j.status == JStatus.reserved)

/-- The jobs table after the DELETE of stale queued react jobs for the post
(job_store.py line 145), run before anything else in the iteration. -/
def jobsAfterDelete (jobs : List Job) (ch mid : Int) : List Job :=
  jobs.filter fun j => !(reactQueued ch mid j)

/-- SELECT MAX(timestamp) over the completed reactions of the post
(job_store.py lines 219-222): the last real reaction time. -/
def lastActionTime (actions : List ActionRow) (ch mid : Int) : Option Nat :=
  ((actions.filter fun a =>
      a.chat_id == ch && a.target_msg_id == mid && a.action_type == "reaction").map
    (·.timestamp)).max?

/-- SELECT MAX(not_before) over the queued or reserved react jobs of the post
(job_store.py lines 231-234); SQL MAX ignores NULLs. -/
def maxNotBefore (jobs : List Job) (ch mid : Int) : Option Nat :=
  ((jobs.filter (reactActive ch mid)).filterMap Job.not_before).max?

/-- max over the two optional cursor components (job_store.py line 242). -/
def optMax : Option Nat → Option Nat → Option Nat
  | none, b => b
  | some a, none => some a
  | some a, some b => some (max a b)

/-- next_not_before(0) of job_store.py lines 243-252: none when the cooldown
is not positive, otherwise max(now, cursor + cooldown) when a cursor exists
and now when none does. -/
def cooldownNotBefore (now cooldown : Nat) (cursor : Option Nat) : Option Nat :=
  if cooldown = 0 then none
  else some (match cursor with
    | none => now
    | some cu => max now (cu + cooldown))

/-- left = max(0, min(target - done - queued, max(0, eligible - queued)))
(job_store.py lines 157-185), with done, queued and eligible read from the
tables after the stale-queued DELETE. -/
def planLeft (jobs1 : List Job) (actions : List ActionRow) (bots : List BotRow)
    (access : List ChatAccessRow) (ch mid : Int) (target : Int) : Int :=
  let done : Int := count_reactions_for_post actions ch mid
  let queued : Int := (jobs1.filter (reactActive ch mid)).length
  let eligible_total : Int := (eligible_bots_for_post bots actions access ch mid).length
  max 0 (min (target - done - queued) (max 0 (eligible_total - queued)))

/-- The emojis already queued or reserved for the post (job_store.py lines
203-208). -/
def planExisting (jobs1 : List Job) (ch mid : Int) : List String :=
  (jobs1.filter (reactActive ch mid)).filterMap Job.emoji

/-- The uq_react_on_queue uniqueness test behind INSERT OR IGNORE: a queued or
reserved react job with the same (chat_id, msg_id, emoji) already exists. -/
def hasActiveEmoji (jobs1 : List Job) (ch mid : Int) (emo : String) : Bool :=
  jobs1.any fun j =>
    j.type == "react" && j.chat_id == ch && j.msg_id == some mid &&
      j.emoji == some emo &&
      (j.status == JStatus.queued || j.status == JStatus.reserved)

/-- The react job row inserted by rebuild_reaction_plan (job_store.py lines
257-265): priority idx + 1, created now, not_before from the cooldown cursor
computed over the post-DELETE jobs table. -/
def plannedJob (jobs1 : List Job) (actions : List ActionRow) (ch mid : Int)
    (idx : Nat) (emo : String) (cooldown now : Nat) (newId : Nat) : Job :=
  { id := newId, type := "react", chat_id := ch, msg_id := some mid,
    emoji := some emo, priority := (idx : Int) + 1, status := JStatus.queued,
    reserved_by := none, reserved_at := none, attempts := 0,
    not_before := cooldownNotBefore now cooldown
      (optMax (lastActionTime actions ch mid) (maxNotBefore jobs1 ch mid)),
    created_at := now, session_name := none }

/-- One post iteration of rebuild_reaction_plan (job_store.py lines 138-265),
for the post cache row at recency rank idx.  The two random draws are oracle
arguments: randSkip is the outcome of random.random() > p (always false when
p reaches 1), targetDraw feeds get_or_set_target, and choiceIdx is the index
random.choices picked among the candidate emoji pairs.  Returns the updated
jobs and posts tables. -/
def plan_post_step (jobs : List Job) (actions : List ActionRow)
    (bots : List BotRow) (access : List ChatAccessRow) (posts : List PostRow)
    (ch : Int) (idx : Nat) (row : PostRow) (base : Int) (dev : Nat)
    (cooldown now : Nat) (newId : Nat) (randSkip : Bool) (targetDraw : Int)
    (choiceIdx : Nat) : List Job × List PostRow :=
  let mid := row.msg_id
  let jobs1 := jobsAfterDelete jobs ch mid
  if randSkip then (jobs1, posts)
  else if row.blocked then
    (jobs1.filter fun j => !(reactKeyAll ch mid j), posts)
  else
    let tp := get_or_set_target posts ch mid base dev targetDraw
    if planLeft jobs1 actions bots access ch mid tp.1 ≤ 0 then
      (jobs1.filter fun j => !(reactQueued ch mid j), tp.2)
    else
      let available := row.all_reactions.filter fun ec => decide (0 < ec.2)
      if available.isEmpty then (jobs1, tp.2)
      else
        let pairs := available.filter fun ec =>
          !((planExisting jobs1 ch mid).contains ec.1)
        if pairs.isEmpty then (jobs1, tp.2)
        else
          let emo := (pairs.getD choiceIdx ("", 0)).1
          if hasActiveEmoji jobs1 ch mid emo then (jobs1, tp.2)
          else
            (jobs1 ++ [plannedJob jobs1 actions ch mid idx emo cooldown now newId],
             tp.2)

/-- The not_before value the claim asserts for a newly planned job, read off
the spec words over the pre-call tables: max(now, lastRealActionTime +
cooldown, latest not_before among the item's queued or reserved react jobs +
cooldown). -/
def claimNotBefore (jobs : List Job) (actions : List ActionRow) (ch mid : Int)
    (cooldown now : Nat) : Nat :=
  let a := match lastActionTime actions ch mid with
    | none => now
    | some t => max now (t + cooldown)
  match maxNotBefore jobs ch mid with
  | none => a
  | some u => max a (u + cooldown)

/-- Concrete state for the C5 counterexample: the last real reaction happened
at time 1000 and one queued react job is scheduled at not_before 1300
(cooldown 300 after the action). -/
def cJob : Job :=
  { id := 1, type := "react", chat_id := 1, msg_id := some 5,
    emoji := some "b", priority := 1, status := JStatus.queued,
    reserved_by := none, reserved_at := none, attempts := 0,
    not_before := some 1300, created_at := 900, session_name := none }

def cJobs : List Job := [cJob]

def cActions : List BotManager.ActionRow :=
  [{ session_name := "s1", action_type := "reaction", target_msg_id := 5,
     chat_id := 1, timestamp := 1000, details := none }]

def cBots : List BotRow :=
  [{ session_name := "s1", phone := none, last_used := none,
     is_banned := false, is_frozen := false, revoked := false },
   { session_name := "s2", phone := none, last_used := none,
     is_banned := false, is_frozen := false, revoked := false },
   { session_name := "s3", phone := none, last_used := none,
     is_banned := false, is_frozen := false, revoked := false }]

def cPost : PostRow :=
  { msg_id := 5, chat_id := 1, text := "", all_reactions := [("a", 2)],
    target := some 7, blocked := false, forced_emoji := none }

def cPosts : List PostRow := [cPost]

/-- The job the counterexample run inserts. -/
def cInserted : Job :=
  plannedJob ([] : List Job) cActions 1 5 0 "a" 300 1400 2

end Planner

namespace ProxyManager

/-- One row of the ip_sessions table (ip_database.py). -/
structure IpSession where
  ip_address : String
  session_name : String
  acquired_at : Nat
  is_active : Bool
deriving DecidableEq, Repr

/-- One row of the ip_history table (ip_database.py); the credential and
time_swapped columns play no part in the claims and are omitted. -/
structure IpHistoryRow where
  ip_address : String
  proxy_id : Int
  time_acquired : Nat
  status : String
  ban_lift_time : Option Nat
deriving DecidableEq, Repr

/-- One row of the proxy_info table; only the columns the claims read. -/
structure ProxyInfoRow where
  proxy_id : Int
  external_ip : Option String
deriving DecidableEq, Repr

/-- count_recent_sessions (ip_database.py lines 123-132): COUNT(DISTINCT
session_name) among rows of the ip inside the trailing hour, active or not. -/
def count_recent_sessions (sess : List IpSession) (ip : String) (now : Nat) : Nat :=
  (((sess.filter fun r =>
      r.ip_address == ip && decide (now - 3600 ≤ r.acquired_at)).map
    (·.session_name)).dedup).length

/-- add_active_session (ip_database.py lines 136-145): upsert on the
(ip_address, session_name) key, refreshing acquired_at and is_active. -/
def add_active_session (sess : List IpSession) (ip s : String) (now : Nat) :
    List IpSession :=
  if sess.any fun r => r.ip_address == ip && r.session_name == s then
    sess.map fun r =>
      if r.ip_address == ip && r.session_name == s then
        { r with acquired_at := now, is_active := true }
      else r
  else sess ++ [{ ip_address := ip, session_name := s, acquired_at := now,
                  is_active := true }]

/-- Row transformer of remove_active_session: is_active = 0 on the key. -/
def removeRowSet (ip s : String) (r : IpSession) : IpSession :=
  if r.ip_address == ip && r.session_name == s then { r with is_active := false }
  else r

/-- remove_active_session (ip_database.py lines 148-154). -/
def remove_active_session (sess : List IpSession) (ip s : String) :
    List IpSession :=
  sess.map (removeRowSet ip s)

/-- count_active_sessions (ip_database.py lines 164-171). -/
def count_active_sessions (sess : List IpSession) (ip : String) : Nat :=
  (sess.filter fun r => r.ip_address == ip && r.is_active).length

/-- purge_old_sessions (ip_database.py lines 156-162): drop rows older than
the age bound. -/
def purge_old_sessions (sess : List IpSession) (now : Nat)
    (max_age_hours : Nat) : List IpSession :=
  sess.filter fun r => decide (now - 3600 * max_age_hours ≤ r.acquired_at)

/-- remove_expired_bans (ip_database.py lines 216-223). -/
def remove_expired_bans (hist : List IpHistoryRow) (now : Nat) :
    List IpHistoryRow :=
  hist.map fun r =>
    if r.status == "BAN" &&
        (match r.ban_lift_time with
         | some t => decide (t ≤ now)
         | none => false) then
      { r with status := "GOOD", ban_lift_time := none }
    else r

/-- get_ip_status (ip_database.py lines 209-214): lift expired bans, then read
the status of the ip; returns the status and the updated history. -/
def get_ip_status (hist : List IpHistoryRow) (ip : String) (now : Nat) :
    Option String × List IpHistoryRow :=
  let h := remove_expired_bans hist now
  ((h.find? fun r => r.ip_address == ip).map (·.status), h)

/-- mark_banned (ip_database.py lines 191-199): 24-hour ban on the ip. -/
def mark_banned (hist : List IpHistoryRow) (ip : String) (now : Nat) :
    List IpHistoryRow :=
  hist.map fun r =>
    if r.ip_address == ip then
      { r with status := "BAN", ban_lift_time := some (now + 86400) }
    else r

/-- add_ip (ip_database.py lines 182-189): INSERT OR REPLACE on the ip primary
key with status GOOD and a fresh time_acquired. -/
def add_ip (hist : List IpHistoryRow) (pid : Int) (ip : String) (now : Nat) :
    List IpHistoryRow :=
  (hist.filter fun r => !(r.ip_address == ip)) ++
    [{ ip_address := ip, proxy_id := pid, time_acquired := now,
       status := "GOOD", ban_lift_time := none }]

/-- The latest-acquired row, the ORDER BY time_acquired DESC LIMIT 1 pick. -/
def pickLatest : List IpHistoryRow → Option IpHistoryRow
  | [] => none
  | r :: rest =>
    match pickLatest rest with
    | none => some r
    | some m => if decide (r.time_acquired < m.time_acquired) then some m else some r

/-- get_last_ip_for_proxy (proxy_manager.py lines 104-113). -/
def get_last_ip_for_proxy (hist : List IpHistoryRow) (pid : Int) :
    Option String :=
  (pickLatest (hist.filter fun r =>
    r.proxy_id == pid && !(r.ip_address == "0.0.0.0"))).map (·.ip_address)

/-- Outcome of the ban and same-ip check of get_valid_proxy_ip. -/
inductive GvpDecision
  | handout
  | mustRotate
deriving DecidableEq, Repr

/-- The per-iteration decision core of get_valid_proxy_ip (proxy_manager.py
lines 321-339 and 440-459): a BAN-listed ip must rotate; an ip equal to the
last recorded ip of the slot is marked banned and must rotate; any other ip is
recorded GOOD and handed out without rotation. -/
def gvp_check (hist : List IpHistoryRow) (pid : Int) (ip : String)
    (now : Nat) : GvpDecision × List IpHistoryRow :=
  if (get_ip_status hist ip now).1 == some "BAN" then
    (GvpDecision.mustRotate, (get_ip_status hist ip now).2)
  else if get_last_ip_for_proxy (get_ip_status hist ip now).2 pid == some ip then
    (GvpDecision.mustRotate, mark_banned (get_ip_status hist ip now).2 ip now)
  else (GvpDecision.handout, add_ip (get_ip_status hist ip now).2 pid ip now)

/-- The persistent store the proxy coordinator works over. -/
structure ProxyState where
  sessions : List IpSession
  history : List IpHistoryRow
  proxies : List ProxyInfoRow
deriving DecidableEq, Repr

/-- The cached-read part of get_proxy_connection_info (proxy_manager.py lines
202-215); the refresh-from-provider path taken on a missing or incomplete
cache row is a network call outside the store model. -/
def get_proxy_connection_info (st : ProxyState) (pid : Int) :
    Option ProxyInfoRow :=
  st.proxies.find? fun r => r.proxy_id == pid

/-- Store effect of a successful rotation (get_valid_proxy_ip): the new
external ip is recorded GOOD in the history and cached on the slot.  A failed
rotation touches the history but never the ip_sessions table. -/
def applyRotation (st : ProxyState) (pid : Int) (newIp : String) (now : Nat) :
    ProxyState :=
  { st with
    history := add_ip st.history pid newIp now,
    proxies := st.proxies.map fun r =>
      if r.proxy_id == pid then { r with external_ip := some newIp } else r }

/-- add_active_session guarded by `if session_name:`. -/
def recordUsage (sess : List IpSession) (ip : String) (s : Option String)
    (now : Nat) : List IpSession :=
  match s with
  | some name => add_active_session sess ip name now
  | none => sess

/-- What get_available_proxy returns when it assigns a slot: the slot id, the
external ip handed to the caller, and whether a rotation was performed for
this assignment. -/
structure AssignResult where
  proxy_id : Int
  ip : String
  rotated : Bool
deriving DecidableEq, Repr

/-- The cached external ip of a slot: the two guard clauses of the loop body
(`if not info: continue` and `if not external_ip: continue`) collapse into one
optional read. -/
def slotIp (st : ProxyState) (pid : Int) : Option String :=
  match get_proxy_connection_info st pid with
  | none => none
  | some info => info.external_ip

/-- The per-slot loop of get_available_proxy (proxy_manager.py lines 534-593).
rot is the oracle for the whole get_valid_proxy_ip call: some newIp on a
successful rotation, none on failure.  In this single-process model the
re-read under the per-slot lock returns the same state, so the re-check
repeats the first comparison and fails again, leading to the rotation. -/
def get_available_proxy_go (st : ProxyState) (rot : Int → Option String)
    (session_name : Option String) (now : Nat) (maxPerIp : Nat) :
    List Int → Option AssignResult × ProxyState
  | [] => (none, st)
  | pid :: rest =>
    match slotIp st pid with
    | none => get_available_proxy_go st rot session_name now maxPerIp rest
    | some ip =>
      if count_recent_sessions st.sessions ip now < maxPerIp then
        (some { proxy_id := pid, ip := ip, rotated := false },
         { st with sessions := recordUsage st.sessions ip session_name now })
      else
        match rot pid with
        | some newIp =>
          (some { proxy_id := pid, ip := newIp, rotated := true },
           { applyRotation st pid newIp now with
             sessions := recordUsage (applyRotation st pid newIp now).sessions
               newIp session_name now })
        | none => get_available_proxy_go st rot session_name now maxPerIp rest

/-- get_available_proxy (proxy_manager.py lines 530-593): purge day-old usage
rows, then walk the slots. -/
def get_available_proxy (st : ProxyState) (rot : Int → Option String)
    (proxy_ids : List Int) (session_name : Option String) (now : Nat)
    (maxPerIp : Nat) : Option AssignResult × ProxyState :=
  get_available_proxy_go
    { st with sessions := purge_old_sessions st.sessions now 24 }
    rot session_name now maxPerIp proxy_ids

/-- release_proxy_ip (proxy_manager.py lines 597-600). -/
def release_proxy_ip (sess : List IpSession) (external_ip : Option String)
    (session_name : Option String) : List IpSession :=
  match external_ip, session_name with
  | some ip, some s => remove_active_session sess ip s
  | _, _ => sess

/-- Concrete state for the C8 counterexample: the slot is on ip X, and both X
and the rotation target Y already carry two distinct identities inside the
trailing hour. -/
def c8State : ProxyState :=
  { sessions :=
      [{ ip_address := "X", session_name := "s1", acquired_at := 1000, is_active := true },
       { ip_address := "X", session_name := "s2", acquired_at := 1000, is_active := true },
       { ip_address := "Y", session_name := "s1", acquired_at := 1000, is_active := true },
       { ip_address := "Y", session_name := "s2", acquired_at := 1000, is_active := true }],
    history := [],
    proxies := [{ proxy_id := 7, external_ip := some "X" }] }

/-- Concrete state for the C9 counterexample: the cached slot ip X is recorded
BAN with an unexpired lift time, and no identity used X recently. -/
def c9State : ProxyState :=
  { sessions := [],
    history := [{ ip_address := "X", proxy_id := 7, time_acquired := 500,
                  status := "BAN", ban_lift_time := some 999999 }],
    proxies := [{ proxy_id := 7, external_ip := some "X" }] }

/-- Concrete usage table for the C10 counterexample. -/
def c10Sessions : List IpSession :=
  [{ ip_address := "X", session_name := "s1", acquired_at := 1000, is_active := true }]

/-- A state whose slot ip carries no recent usage, for the C8 witness. -/
def c8EmptyState : ProxyState :=
  { sessions := [], history := [],
    proxies := [{ proxy_id := 7, external_ip := some "X" }] }

/-- A history whose last ip for the slot differs from the probed ip and is not
banned, for the C9 witness. -/
def c9GoodHist : List IpHistoryRow :=
  [{ ip_address := "Z", proxy_id := 7, time_acquired := 100,
     status := "GOOD", ban_lift_time := none }]

end ProxyManager

namespace SessionStore

/-- MIN_REUSE_DELAY (session_store.py line 41): rest window in seconds. -/
def MIN_REUSE_DELAY : Nat := 300

/-- One row of the session_lock table. -/
structure LockRow where
  name : String
  in_use : Bool
  released_at : Option Nat
deriving DecidableEq, Repr

/-- Row transformer of the UPDATE in the successful branch of acquire:
in_use = 1, released_at = NULL for the named row. -/
def lockRowSet (name : String) (r : LockRow) : LockRow :=
  if r.name == name then { r with in_use := true, released_at := none } else r

/-- The UPDATE of the successful branch of acquire applied to the table. -/
def lockUpdate (db : List LockRow) (name : String) : List LockRow :=
  db.map (lockRowSet name)

/-- The branch of acquire taken once the row for the name was found: refuse a
busy row, refuse a row still inside the rest window, lock otherwise.  Python
truthiness makes a released_at of zero skip the rest-window test, mirrored by
the rel not equal 0 conjunct. -/
def acquireCont (db : List LockRow) (name : String) (now : Nat)
    (row : LockRow) : Bool × List LockRow :=
  if row.in_use then (false, db)
  else
    match row.released_at with
    | some rel =>
      if rel ≠ 0 ∧ now - rel < MIN_REUSE_DELAY then (false, db)
      else (true, lockUpdate db name)
    | none => (true, lockUpdate db name)

/-- acquire (session_store.py lines 153-196).  An unseen name is inserted
locked; for an existing row acquireCont decides. -/
def acquire (db : List LockRow) (name : String) (now : Nat) :
    Bool × List LockRow :=
  match db.find? (fun r => r.name == name) with
  | none =>
    (true, db ++ [{ name := name, in_use := true, released_at := none }])
  | some row => acquireCont db name now row

/-- Row transformer of the UPDATE in release: in_use = 0, released_at = now
for the named row. -/
def releaseRowSet (name : String) (now : Nat) (r : LockRow) : LockRow :=
  if r.name == name then { r with in_use := false, released_at := some now }
  else r

/-- release (session_store.py lines 198-210) applied to the table. -/
def release (db : List LockRow) (name : String) (now : Nat) : List LockRow :=
  db.map (releaseRowSet name now)

/-- Branch-by-branch correctness predicate for one acquire call, under clocks
past the rest window length (time.time() is always far beyond 300): a new name
is inserted locked and accepted; a busy row is refused unchanged; a row
released less than MIN_REUSE_DELAY ago is refused unchanged; any other
existing row is locked with its release time cleared and accepted. -/
def acquireSpec (db : List LockRow) (name : String) (now : Nat) : Prop :=
  (db.find? (fun r => r.name == name) = none →
    acquire db name now =
      (true, db ++ [{ name := name, in_use := true, released_at := none }])) ∧
  (∀ row, db.find? (fun r => r.name == name) = some row →
    (row.in_use = true → acquire db name now = (false, db)) ∧
    (row.in_use = false →
      ∀ rel, row.released_at = some rel → now - rel < MIN_REUSE_DELAY →
        acquire db name now = (false, db)) ∧
    (row.in_use = false → row.released_at = none →
      acquire db name now = (true, lockUpdate db name)) ∧
    (row.in_use = false →
      ∀ rel, row.released_at = some rel → MIN_REUSE_DELAY ≤ now - rel →
        acquire db name now = (true, lockUpdate db name)))

/-- Sample lock rows for the witness theorems. -/
def wLockRested : List LockRow := [{ name := "s1", in_use := false, released_at := some 100 }]

def wLockBusy : List LockRow := [{ name := "s1", in_use := true, released_at := none }]

end SessionStore

namespace JobStore

theorem keyLe_total (a b : Job) : keyLe a b = true ∨ keyLe b a = true := by
  simp only [keyLe, Bool.or_eq_true, Bool.and_eq_true, decide_eq_true_eq, beq_iff_eq]
  omega

theorem keyLe_trans {a b c : Job} (h1 : keyLe a b = true) (h2 : keyLe b c = true) :
    keyLe a c = true := by
  simp only [keyLe, Bool.or_eq_true, Bool.and_eq_true, decide_eq_true_eq, beq_iff_eq] at *
  omega

theorem pickMin_eq_none {l : List Job} : pickMin l = none ↔ l = [] := by
  cases l with
  | nil => simp [pickMin]
  | cons j rest =>
    simp only [pickMin]
    cases hr : pickMin rest with
    | none => simp
    | some m => by_cases hk : keyLe j m = true <;> simp [hk]

theorem pickMin_mem : ∀ {l : List Job} {m : Job}, pickMin l = some m → m ∈ l := by
  intro l
  induction l with
  | nil => intro m h; simp [pickMin] at h
  | cons j rest ih =>
    intro m h
    simp only [pickMin] at h
    cases hr : pickMin rest with
    | none =>
      rw [hr] at h
      simp only [Option.some.injEq] at h
      exact h ▸ List.mem_cons_self _ _
    | some m' =>
      rw [hr] at h
      have h' : (if keyLe j m' = true then some j else some m') = some m := h
      by_cases hk : keyLe j m' = true
      · rw [if_pos hk] at h'
        simp only [Option.some.injEq] at h'
        exact h' ▸ List.mem_cons_self _ _
      · rw [if_neg hk] at h'
        simp only [Option.some.injEq] at h'
        exact List.mem_cons_of_mem _ (h' ▸ ih hr)

theorem pickMin_min : ∀ {l : List Job} {m : Job}, pickMin l = some m →
    ∀ x ∈ l, keyLe m x = true := by
  intro l
  induction l with
  | nil => intro m h; simp [pickMin] at h
  | cons j rest ih =>
    intro m h x hx
    simp only [pickMin] at h
    cases hr : pickMin rest with
    | none =>
      rw [hr] at h
      simp only [Option.some.injEq] at h
      subst h
      have hre : rest = [] := pickMin_eq_none.mp hr
      subst hre
      rcases List.mem_cons.mp hx with h1 | h1
      · subst h1
        rcases keyLe_total x x with ht | ht <;> exact ht
      · simp at h1
    | some m' =>
      rw [hr] at h
      have h' : (if keyLe j m' = true then some j else some m') = some m := h
      by_cases hk : keyLe j m' = true
      · rw [if_pos hk] at h'
        simp only [Option.some.injEq] at h'
        subst h'
        rcases List.mem_cons.mp hx with h1 | h1
        · rw [h1]
          rcases keyLe_total j j with ht | ht <;> exact ht
        · exact keyLe_trans hk (ih hr x h1)
      · rw [if_neg hk] at h'
        simp only [Option.some.injEq] at h'
        subst h'
        rcases List.mem_cons.mp hx with h1 | h1
        · rw [h1]
          rcases keyLe_total m' j with ht | ht
          · exact ht
          · exact absurd ht hk
        · exact ih hr x h1

/-- With pairwise-distinct ids (the PRIMARY KEY invariant), find? by id on a
member row returns exactly that row. -/
theorem find_id_eq {db : List Job} {j : Job}
    (hnd : (db.map Job.id).Nodup) (hmem : j ∈ db) :
    db.find? (fun x => x.id == j.id) = some j := by
  induction db with
  | nil => simp at hmem
  | cons a rest ih =>
    simp only [List.map_cons, List.nodup_cons] at hnd
    rcases List.mem_cons.mp hmem with h1 | h1
    · subst h1
      simp [List.find?]
    · have hne : a.id ≠ j.id := by
        intro he
        exact hnd.1 (he ▸ List.mem_map_of_mem Job.id h1)
      rw [List.find?]
      have : (a.id == j.id) = false := by simp [hne]
      rw [this]
      exact ih hnd.2 h1

theorem map_fix_of_eq {f : Job → Job} :
    ∀ l : List Job, (∀ x ∈ l, f x = x) → l.map f = l := by
  intro l h
  induction l with
  | nil => rfl
  | cons a t ih =>
    simp only [List.map_cons]
    rw [h a (List.mem_cons_self _ _), ih fun x hx => h x (List.mem_cons_of_mem _ hx)]

/-- With pairwise-distinct ids, the UPDATE-by-id map rewrites exactly the one
member row and leaves every other row in place. -/
theorem replace_by_id {db : List Job} {j : Job} (r : Job)
    (hnd : (db.map Job.id).Nodup) (hmem : j ∈ db) :
    ∃ l1 l2, db = l1 ++ j :: l2 ∧
      (db.map fun x => if x.id = j.id then r else x) = l1 ++ r :: l2 := by
  obtain ⟨l1, l2, rfl⟩ := List.append_of_mem hmem
  refine ⟨l1, l2, rfl, ?_⟩
  have hdisj := hnd
  rw [List.map_append, List.map_cons, List.nodup_append] at hdisj
  obtain ⟨hnd1, hnd2, hdisj⟩ := hdisj
  have h1 : ∀ x ∈ l1, x.id ≠ j.id := by
    intro x hx he
    exact hdisj (he ▸ List.mem_map_of_mem Job.id hx) (List.mem_cons_self _ _)
  have h2 : ∀ x ∈ l2, x.id ≠ j.id := by
    intro x hx he
    have hc := List.nodup_cons.mp hnd2
    exact hc.1 (he ▸ List.mem_map_of_mem Job.id hx)
  rw [List.map_append, List.map_cons, if_pos rfl,
    map_fix_of_eq l1 (fun x hx => if_neg (h1 x hx)),
    map_fix_of_eq l2 (fun x hx => if_neg (h2 x hx))]

theorem failRow_id (maxA backoff now : Nat) (j : Job) :
    (failRow maxA backoff now j).id = j.id := by
  unfold failRow; split <;> rfl

theorem failRow_attempts (maxA backoff now : Nat) (j : Job) :
    (failRow maxA backoff now j).attempts = j.attempts + 1 := by
  unfold failRow; split <;> rfl

theorem failRow_status (maxA backoff now : Nat) (j : Job) :
    (failRow maxA backoff now j).status =
      (if maxA ≤ j.attempts + 1 then JStatus.dead else JStatus.queued) := by
  unfold failRow; split <;> simp_all

theorem nodup_replace {l1 l2 : List Job} {j r : Job} (hid : r.id = j.id)
    (hnd : ((l1 ++ j :: l2).map Job.id).Nodup) :
    ((l1 ++ r :: l2).map Job.id).Nodup := by
  simpa [List.map_append, List.map_cons, hid] using hnd

theorem fail_step {db : List Job} {j : Job} (maxA backoff now : Nat)
    (hnd : (db.map Job.id).Nodup) (hmem : j ∈ db) :
    ∃ l1 l2, db = l1 ++ j :: l2 ∧
      fail_and_maybe_requeue db j.id maxA backoff now =
        l1 ++ failRow maxA backoff now j :: l2 := by
  have hf := find_id_eq hnd hmem
  obtain ⟨l1, l2, hsplit, hmap⟩ := replace_by_id (failRow maxA backoff now j) hnd hmem
  refine ⟨l1, l2, hsplit, ?_⟩
  unfold fail_and_maybe_requeue
  rw [hf]
  exact hmap

theorem iterate_fail_inv (db : List Job) (j : Job) (maxA backoff : Nat)
    (times : Nat → Nat) (hnd : (db.map Job.id).Nodup) (hmem : j ∈ db)
    (h0 : j.attempts = 0) :
    ∀ k, ∃ r, r ∈ iterate_fail db j.id maxA backoff times k ∧
      ((iterate_fail db j.id maxA backoff times k).map Job.id).Nodup ∧
      r.id = j.id ∧ r.attempts = k ∧
      (1 ≤ k → r.status = (if maxA ≤ k then JStatus.dead else JStatus.queued)) := by
  intro k
  induction k with
  | zero => exact ⟨j, hmem, hnd, rfl, h0, fun h => absurd h (by omega)⟩
  | succ k ih =>
    obtain ⟨r, hrmem, hrnd, hrid, hratt, _⟩ := ih
    obtain ⟨l1, l2, hsplit, hstep⟩ := fail_step maxA backoff (times k) hrnd hrmem
    have hiter : iterate_fail db j.id maxA backoff times (k + 1) =
        l1 ++ failRow maxA backoff (times k) r :: l2 := by
      show fail_and_maybe_requeue (iterate_fail db j.id maxA backoff times k)
          j.id maxA backoff (times k) = _
      nth_rewrite 2 [← hrid]
      exact hstep
    refine ⟨failRow maxA backoff (times k) r, ?_, ?_, ?_, ?_, ?_⟩
    · rw [hiter]
      exact List.mem_append_right _ (List.mem_cons_self _ _)
    · rw [hiter]
      exact nodup_replace (failRow_id maxA backoff (times k) r) (hsplit ▸ hrnd)
    · rw [failRow_id]
      exact hrid
    · rw [failRow_attempts, hratt]
    · intro _
      rw [failRow_status, hratt]

/-- Claim C1: for every job-table state and worker id, reserve_next reserves
exactly one row, the queued row with elapsed not_before that is minimal for
priority then created_at, setting reserved_by and reserved_at on it and
leaving every other row unchanged; it returns none and changes nothing when no
such row exists, and the returned row never has a future not_before. -/
theorem C1_reserve_next_correct (db : List Job) (w : String) (now : Nat)
    (hnd : (db.map Job.id).Nodup) : reserveSpec db w now := by
  constructor
  · intro he
    unfold reserve_next
    rw [he]
    rfl
  · intro hne
    cases hp : pickMin (db.filter (isEligible now)) with
    | none => exact absurd (pickMin_eq_none.mp hp) hne
    | some q =>
      have hq' := pickMin_mem hp
      have hqmem : q ∈ db := (List.mem_filter.mp hq').1
      have hqel : isEligible now q = true := (List.mem_filter.mp hq').2
      obtain ⟨l1, l2, hsplit, hmap⟩ := replace_by_id (reserveRow w now q) hnd hqmem
      refine ⟨q, l1, l2, hsplit, ?_, ?_, ?_, ?_⟩
      · have hb := hqel
        simp only [isEligible, Bool.and_eq_true, beq_iff_eq] at hb
        exact hb.1
      · have hb := hqel
        simp only [isEligible, Bool.and_eq_true] at hb
        exact hb.2
      · intro x hx hxe
        exact pickMin_min hp x (List.mem_filter.mpr ⟨hx, hxe⟩)
      · unfold reserve_next
        rw [hp]
        show (some (reserveRow w now q),
          db.map fun x => if x.id = q.id then reserveRow w now q else x) = _
        rw [hmap]

theorem C1_reserve_next_correct_witness :
    (wDb.map Job.id).Nodup ∧ reserveSpec wDb "w1" 100 :=
  ⟨by decide, C1_reserve_next_correct wDb "w1" 100 (by decide)⟩

/-- Claim C2: fail_and_maybe_requeue on a present job id bumps attempts by
one, requeues with not_before = now + backoff and a cleared lease when the
bumped count is below max_attempts and marks the row dead otherwise, touching
no other row; and starting from attempts = 0, repeated calls make the job dead
exactly on the max_attempts-th call and every later call leaves it dead. -/
theorem C2_fail_and_maybe_requeue_correct :
    (∀ (db : List Job) (j : Job) (maxA backoff now : Nat),
        (db.map Job.id).Nodup → j ∈ db → failSingleSpec db j maxA backoff now) ∧
    (∀ (db : List Job) (j : Job) (maxA backoff : Nat) (times : Nat → Nat),
        (db.map Job.id).Nodup → j ∈ db → j.attempts = 0 → 1 ≤ maxA →
        failIterSpec db j maxA backoff times) := by
  constructor
  · intro db j maxA backoff now hnd hmem
    obtain ⟨l1, l2, hsplit, hstep⟩ := fail_step maxA backoff now hnd hmem
    refine ⟨l1, l2, hsplit, hstep, failRow_attempts maxA backoff now j, ?_, ?_⟩
    · intro hlt
      unfold failRow
      rw [if_neg (by omega)]
    · intro hge
      unfold failRow
      rw [if_pos hge]
  · intro db j maxA backoff times hnd hmem h0 _ k hk
    obtain ⟨r, hrmem, _, hrid, hratt, hrst⟩ :=
      iterate_fail_inv db j maxA backoff times hnd hmem h0 k
    exact ⟨r, hrmem, hrid, hratt, hrst hk⟩

theorem C2_fail_and_maybe_requeue_correct_witness :
    ((wDb.map Job.id).Nodup ∧ wJob1 ∈ wDb ∧ wJob1.attempts = 0 ∧ 1 ≤ 3) ∧
    failSingleSpec wDb wJob1 3 60 100 ∧
    failIterSpec wDb wJob1 3 60 (fun _ => 100) :=
  ⟨⟨by decide, by decide, by decide, by decide⟩,
   C2_fail_and_maybe_requeue_correct.1 wDb wJob1 3 60 100 (by decide) (by decide),
   C2_fail_and_maybe_requeue_correct.2 wDb wJob1 3 60 (fun _ => 100)
     (by decide) (by decide) (by decide) (by decide)⟩

/-- Claim C7: requeue_expired requeues, clearing reserved_by and reserved_at,
exactly the reserved rows whose reserved_at is at least ttl seconds in the
past, and leaves every other row, whatever its status, completely unchanged. -/
theorem C7_requeue_expired_frame (db : List Job) (now ttl : Nat) :
    (∀ j : Job, leaseExpired now ttl j = true ↔
        j.status = JStatus.reserved ∧
          ∃ t, j.reserved_at = some t ∧ t + ttl ≤ now) ∧
    (∀ i : Nat, (requeue_expired db now ttl)[i]? =
      (db[i]?).map fun j =>
        if leaseExpired now ttl j then
          { j with status := JStatus.queued, reserved_by := none,
                   reserved_at := none }
        else j) := by
  constructor
  · intro j
    simp only [leaseExpired, Bool.and_eq_true, beq_iff_eq]
    cases hr : j.reserved_at with
    | none => simp
    | some t => simp [decide_eq_true_eq]
  · intro i
    simp [requeue_expired, List.getElem?_map]

end JobStore

namespace BotManager

/-- Claim C3 fails on the code: the actions table is created without any
uniqueness constraint and log_action is a plain INSERT, so logging the same
completed reaction twice leaves two rows for the key and
count_reactions_for_post grows from 1 to 2 instead of staying unchanged. -/
theorem C3_duplicate_log_counterexample :
    (reactionKeyRows actLog2 "s1" 5 9).length = 2 ∧
    count_reactions_for_post actLog2 5 9 = 2 ∧
    count_reactions_for_post actLog1 5 9 = 1 ∧
    has_bot_reacted actLog1 "s1" 5 9 = true := by
  decide

/-- Claim C3 (amended): the actions table carries no uniqueness constraint, so
a second completed reaction logged for the same (session_name, chat_id,
target_msg_id, action_type = reaction) key appends another row:
count_reactions_for_post grows by exactly one on the duplicate insertion,
while has_bot_reacted is unchanged, staying true. -/
theorem C3_duplicate_log_amended (db : List ActionRow) (s : String)
    (cid mid : Int) (t : Nat) (d : Option String)
    (h : has_bot_reacted db s cid mid = true) :
    count_reactions_for_post (log_action db s "reaction" mid cid t d) cid mid
      = count_reactions_for_post db cid mid + 1 ∧
    has_bot_reacted (log_action db s "reaction" mid cid t d) s cid mid = true := by
  constructor
  · simp [log_action, count_reactions_for_post, List.filter_append]
  · simp [log_action, has_bot_reacted, List.filter_append]

theorem C3_duplicate_log_amended_witness :
    has_bot_reacted actLog1 "s1" 5 9 = true ∧
    (count_reactions_for_post (log_action actLog1 "s1" "reaction" 9 5 200 none) 5 9
        = count_reactions_for_post actLog1 5 9 + 1 ∧
     has_bot_reacted (log_action actLog1 "s1" "reaction" 9 5 200 none) "s1" 5 9 = true) :=
  ⟨by decide, C3_duplicate_log_amended actLog1 "s1" 5 9 200 none (by decide)⟩

end BotManager

namespace SessionStore

theorem find?_name_map {g : LockRow → LockRow} (hg : ∀ r, (g r).name = r.name)
    (db : List LockRow) (n : String) :
    (db.map g).find? (fun r => r.name == n) =
      (db.find? (fun r => r.name == n)).map g := by
  induction db with
  | nil => rfl
  | cons a t ih =>
    simp only [List.map_cons, List.find?]
    rw [hg a]
    cases h : a.name == n
    · exact ih
    · rfl

theorem find?_append_none {p : LockRow → Bool} {db : List LockRow}
    (l2 : List LockRow) (h : db.find? p = none) :
    (db ++ l2).find? p = l2.find? p := by
  induction db with
  | nil => rfl
  | cons a t ih =>
    simp only [List.find?] at h
    rw [List.cons_append]
    simp only [List.find?]
    cases ha : p a
    · rw [ha] at h
      exact ih h
    · rw [ha] at h
      exact Option.noConfusion h

theorem acquire_find_none {db : List LockRow} {name : String} {now : Nat}
    (h : db.find? (fun r => r.name == name) = none) :
    acquire db name now =
      (true, db ++ [{ name := name, in_use := true, released_at := none }]) := by
  unfold acquire
  rw [h]

theorem acquire_find_some {db : List LockRow} {name : String} {now : Nat}
    {row : LockRow} (h : db.find? (fun r => r.name == name) = some row) :
    acquire db name now = acquireCont db name now row := by
  unfold acquire
  rw [h]

theorem lockRowSet_name (name : String) (r : LockRow) :
    (lockRowSet name r).name = r.name := by
  unfold lockRowSet
  split <;> rfl

theorem releaseRowSet_name (name : String) (now : Nat) (r : LockRow) :
    (releaseRowSet name now r).name = r.name := by
  unfold releaseRowSet
  split <;> rfl

theorem lockUpdate_find {db : List LockRow} {name : String} {row : LockRow}
    (hf : db.find? (fun r => r.name == name) = some row) :
    (lockUpdate db name).find? (fun r => r.name == name) =
      some { row with in_use := true, released_at := none } := by
  show (db.map (lockRowSet name)).find? (fun r => r.name == name) = _
  rw [find?_name_map (lockRowSet_name name) db name, hf]
  have hp : (row.name == name) = true := by
    simpa using List.find?_some hf
  simp [lockRowSet, hp]

theorem release_find {db : List LockRow} {name : String} {now : Nat}
    {row : LockRow} (hf : db.find? (fun r => r.name == name) = some row) :
    (release db name now).find? (fun r => r.name == name) =
      some { row with in_use := false, released_at := some now } := by
  show (db.map (releaseRowSet name now)).find? (fun r => r.name == name) = _
  rw [find?_name_map (releaseRowSet_name name now) db name, hf]
  have hp : (row.name == name) = true := by
    simpa using List.find?_some hf
  simp [releaseRowSet, hp]

/-- Claim C4: branch semantics of acquire for real clocks (part 1), plus the
claimed consequences: a refused call never changes the store (part 2), an
acquire right after a successful acquire of the same name fails (part 3), an
acquire at the moment of a release fails (part 4), and an acquire once the
rest window has elapsed succeeds (part 5). -/
theorem C4_acquire_correct :
    (∀ (db : List LockRow) (name : String) (now : Nat),
      MIN_REUSE_DELAY ≤ now → acquireSpec db name now) ∧
    (∀ (db : List LockRow) (name : String) (now : Nat),
      (acquire db name now).1 = false → (acquire db name now).2 = db) ∧
    (∀ (db db1 : List LockRow) (name : String) (now now2 : Nat),
      acquire db name now = (true, db1) → (acquire db1 name now2).1 = false) ∧
    (∀ (db : List LockRow) (name : String) (now : Nat) (row : LockRow),
      db.find? (fun r => r.name == name) = some row → 0 < now →
      (acquire (release db name now) name now).1 = false) ∧
    (∀ (db : List LockRow) (name : String) (now : Nat) (row : LockRow) (t : Nat),
      db.find? (fun r => r.name == name) = some row → row.in_use = false →
      row.released_at = some t → t + MIN_REUSE_DELAY ≤ now →
      (acquire db name now).1 = true) := by
  refine ⟨?_, ?_, ?_, ?_, ?_⟩
  · intro db name now h300
    constructor
    · intro hf
      exact acquire_find_none hf
    · intro row hf
      refine ⟨?_, ?_, ?_, ?_⟩
      · intro hu
        rw [acquire_find_some hf]
        simp [acquireCont, hu]
      · intro hu rel hrel hcool
        rw [acquire_find_some hf]
        have hrel0 : rel ≠ 0 := by
          intro h0
          subst h0
          simp only [Nat.sub_zero] at hcool
          omega
        simp [acquireCont, hu, hrel, hrel0, hcool]
      · intro hu hrel
        rw [acquire_find_some hf]
        simp [acquireCont, hu, hrel]
      · intro hu rel hrel hrest
        rw [acquire_find_some hf]
        have hc : ¬(rel ≠ 0 ∧ now - rel < MIN_REUSE_DELAY) := by
          intro hand
          omega
        simp [acquireCont, hu, hrel, hc]
  · intro db name now h
    cases hf : db.find? (fun r => r.name == name) with
    | none =>
      rw [acquire_find_none hf] at h
      simp at h
    | some row =>
      rw [acquire_find_some hf] at h ⊢
      unfold acquireCont at h ⊢
      by_cases hu : row.in_use = true
      · simp [hu]
      · cases hrel : row.released_at with
        | none => simp [hu, hrel] at h
        | some rel =>
          by_cases hc : rel ≠ 0 ∧ now - rel < MIN_REUSE_DELAY
          · simp [hu, hrel, hc]
          · simp [hu, hrel, hc] at h
  · intro db db1 name now now2 h
    have hbusy : ∃ row, db1.find? (fun r => r.name == name) = some row ∧
        row.in_use = true := by
      cases hf : db.find? (fun r => r.name == name) with
      | none =>
        rw [acquire_find_none hf] at h
        have hdb1 : db ++ [{ name := name, in_use := true, released_at := none }] = db1 := by
          exact congrArg Prod.snd h
        refine ⟨{ name := name, in_use := true, released_at := none }, ?_, rfl⟩
        rw [← hdb1, find?_append_none _ hf]
        exact List.find?_cons_of_pos _ (by simp)
      | some row =>
        rw [acquire_find_some hf] at h
        unfold acquireCont at h
        by_cases hu : row.in_use = true
        · rw [if_pos hu] at h
          simp at h
        · rw [if_neg hu] at h
          cases hrel : row.released_at with
          | none =>
            rw [hrel] at h
            have h2 : (true, lockUpdate db name) = (true, db1) := h
            have hdb1 : lockUpdate db name = db1 := congrArg Prod.snd h2
            exact ⟨{ row with in_use := true, released_at := none },
              hdb1 ▸ lockUpdate_find hf, rfl⟩
          | some rel =>
            rw [hrel] at h
            have h2 : (if rel ≠ 0 ∧ now - rel < MIN_REUSE_DELAY then (false, db)
                else (true, lockUpdate db name)) = (true, db1) := h
            by_cases hc : rel ≠ 0 ∧ now - rel < MIN_REUSE_DELAY
            · rw [if_pos hc] at h2
              simp at h2
            · rw [if_neg hc] at h2
              have hdb1 : lockUpdate db name = db1 := congrArg Prod.snd h2
              exact ⟨{ row with in_use := true, released_at := none },
                hdb1 ▸ lockUpdate_find hf, rfl⟩
    obtain ⟨row, hf1, hu1⟩ := hbusy
    rw [acquire_find_some hf1]
    simp [acquireCont, hu1]
  · intro db name now row hf hpos
    have h2 : (release db name now).find? (fun r => r.name == name) =
        some { row with in_use := false, released_at := some now } :=
      release_find hf
    rw [acquire_find_some h2]
    have hc : now ≠ 0 ∧ now - now < MIN_REUSE_DELAY := by
      constructor
      · omega
      · show now - now < 300
        omega
    simp [acquireCont, hc, MIN_REUSE_DELAY]
  · intro db name now row t hf hu hrel hrest
    rw [acquire_find_some hf]
    have hc : ¬(t ≠ 0 ∧ now - t < MIN_REUSE_DELAY) := by
      intro hand
      have : now - t < 300 := hand.2
      omega
    simp [acquireCont, hu, hrel, hc]

theorem C4_acquire_correct_witness :
    (MIN_REUSE_DELAY ≤ 1000 ∧ acquireSpec wLockRested "s1" 1000) ∧
    ((acquire wLockBusy "s1" 1000).1 = false ∧
      (acquire wLockBusy "s1" 1000).2 = wLockBusy) ∧
    (acquire ([] : List LockRow) "s1" 400 =
        (true, [{ name := "s1", in_use := true, released_at := none }]) ∧
      (acquire [{ name := "s1", in_use := true, released_at := none }] "s1" 500).1 = false) ∧
    (wLockRested.find? (fun r => r.name == "s1") =
        some { name := "s1", in_use := false, released_at := some 100 } ∧ 0 < 50 ∧
      (acquire (release wLockRested "s1" 50) "s1" 50).1 = false) ∧
    ((100 : Nat) + MIN_REUSE_DELAY ≤ 1000 ∧
      (acquire wLockRested "s1" 1000).1 = true) := by
  refine ⟨⟨by decide, C4_acquire_correct.1 wLockRested "s1" 1000 (by decide)⟩,
    ⟨by decide, C4_acquire_correct.2.1 wLockBusy "s1" 1000 (by decide)⟩,
    ⟨by decide, C4_acquire_correct.2.2.1 ([] : List LockRow)
      [{ name := "s1", in_use := true, released_at := none }] "s1" 400 500 (by decide)⟩,
    ⟨by decide, by decide, C4_acquire_correct.2.2.2.1 wLockRested "s1" 50
      { name := "s1", in_use := false, released_at := some 100 } (by decide) (by decide)⟩,
    ⟨by decide, C4_acquire_correct.2.2.2.2 wLockRested "s1" 1000
      { name := "s1", in_use := false, released_at := some 100 } 100
      (by decide) (by decide) (by decide) (by decide)⟩⟩

end SessionStore

namespace PostManager

theorem targetRowSet_key (cid mid tgt : Int) (r : PostRow) :
    (targetRowSet cid mid tgt r).chat_id = r.chat_id ∧
      (targetRowSet cid mid tgt r).msg_id = r.msg_id := by
  unfold targetRowSet
  split <;> exact ⟨rfl, rfl⟩

theorem find?_postKey_map {g : PostRow → PostRow}
    (hg : ∀ r, (g r).chat_id = r.chat_id ∧ (g r).msg_id = r.msg_id)
    (posts : List PostRow) (cid mid : Int) :
    (posts.map g).find? (postKey cid mid) =
      (posts.find? (postKey cid mid)).map g := by
  induction posts with
  | nil => rfl
  | cons a t ih =>
    simp only [List.map_cons, List.find?]
    have hk : postKey cid mid (g a) = postKey cid mid a := by
      unfold postKey
      rw [(hg a).1, (hg a).2]
    rw [hk]
    cases h : postKey cid mid a
    · exact ih
    · rfl

/-- Claim C6: on a cached post with no stored target, get_or_set_target
persists and returns max(1, base + draw) with the draw bounded by the
deviation, so the result lies between max(1, base - deviation) and
max(1, base + deviation); and every later call for the post, whatever its
base, deviation or draw, returns the first-computed value and leaves the
table unchanged. -/
theorem C6_get_or_set_target_correct (posts : List PostRow)
    (cid mid base : Int) (dev : Nat) (draw : Int) (row : PostRow)
    (hf : posts.find? (postKey cid mid) = some row)
    (ht : row.target = none)
    (hlo : -(dev : Int) ≤ draw) (hhi : draw ≤ (dev : Int)) :
    (get_or_set_target posts cid mid base dev draw).1 = max 1 (base + draw) ∧
    max 1 (base - (dev : Int)) ≤ (get_or_set_target posts cid mid base dev draw).1 ∧
    (get_or_set_target posts cid mid base dev draw).1 ≤ max 1 (base + (dev : Int)) ∧
    ((get_or_set_target posts cid mid base dev draw).2).find? (postKey cid mid) =
      some { row with target := some (max 1 (base + draw)) } ∧
    (∀ (base2 : Int) (dev2 : Nat) (draw2 : Int),
      get_or_set_target (get_or_set_target posts cid mid base dev draw).2
          cid mid base2 dev2 draw2 =
        ((get_or_set_target posts cid mid base dev draw).1,
         (get_or_set_target posts cid mid base dev draw).2)) := by
  have hrun : get_or_set_target posts cid mid base dev draw =
      (max 1 (base + draw),
       posts.map (targetRowSet cid mid (max 1 (base + draw)))) := by
    have h1 : get_or_set_target posts cid mid base dev draw =
        (match row.target with
         | some v =>
           if v ≠ 0 then (v, posts)
           else (max 1 (base + draw),
             posts.map (targetRowSet cid mid (max 1 (base + draw))))
         | none =>
           (max 1 (base + draw),
            posts.map (targetRowSet cid mid (max 1 (base + draw))))) := by
      unfold get_or_set_target
      rw [hf]
    rw [h1, ht]
  have hkey : postKey cid mid row = true := by
    simpa using List.find?_some hf
  have hfind2 : (posts.map (targetRowSet cid mid (max 1 (base + draw)))).find?
      (postKey cid mid) = some { row with target := some (max 1 (base + draw)) } := by
    rw [find?_postKey_map (targetRowSet_key cid mid (max 1 (base + draw))), hf]
    show some (targetRowSet cid mid (max 1 (base + draw)) row) = _
    unfold targetRowSet
    rw [if_pos hkey]
  refine ⟨by rw [hrun], by rw [hrun]; simp; omega, by rw [hrun]; simp; omega, ?_, ?_⟩
  · rw [hrun]
    exact hfind2
  · intro base2 dev2 draw2
    rw [hrun]
    have htgt : ¬(max 1 (base + draw) = 0) := by
      have : (1 : Int) ≤ max 1 (base + draw) := le_max_left _ _
      omega
    unfold get_or_set_target
    rw [hfind2]
    show (if max 1 (base + draw) ≠ 0 then _ else _) = _
    rw [if_pos htgt]

theorem C6_get_or_set_target_correct_witness :
    (wPosts.find? (postKey 5 9) =
        some { msg_id := 9, chat_id := 5, text := "", all_reactions := [("a", 2)],
               target := none, blocked := false, forced_emoji := none } ∧
      (-(2 : Int) ≤ 1 ∧ (1 : Int) ≤ 2)) ∧
    ((get_or_set_target wPosts 5 9 10 2 1).1 = max 1 (10 + 1) ∧
     max 1 (10 - (2 : Int)) ≤ (get_or_set_target wPosts 5 9 10 2 1).1 ∧
     (get_or_set_target wPosts 5 9 10 2 1).1 ≤ max 1 (10 + (2 : Int)) ∧
     ((get_or_set_target wPosts 5 9 10 2 1).2).find? (postKey 5 9) =
       some { msg_id := 9, chat_id := 5, text := "", all_reactions := [("a", 2)],
              target := some (max 1 (10 + 1)), blocked := false, forced_emoji := none } ∧
     (∀ (base2 : Int) (dev2 : Nat) (draw2 : Int),
       get_or_set_target (get_or_set_target wPosts 5 9 10 2 1).2 5 9 base2 dev2 draw2 =
         ((get_or_set_target wPosts 5 9 10 2 1).1,
          (get_or_set_target wPosts 5 9 10 2 1).2))) :=
  ⟨⟨by decide, by decide, by decide⟩,
   C6_get_or_set_target_correct wPosts 5 9 10 2 1
     { msg_id := 9, chat_id := 5, text := "", all_reactions := [("a", 2)],
       target := none, blocked := false, forced_emoji := none }
     (by decide) (by decide) (by decide) (by decide)⟩

end PostManager

namespace Planner

open JobStore BotManager PostManager

theorem no_self_append {l : List Job} {j : Job} (h : l = l ++ [j]) : False := by
  have hlen := congrArg List.length h
  simp at hlen

theorem filter_ne_append {l : List Job} {p : Job → Bool} {j : Job}
    (h : l.filter p = l ++ [j]) : False := by
  have hlen := congrArg List.length h
  have hle := List.length_filter_le p l
  simp [List.length_append] at hlen
  omega

/-- Whenever a plan_post_step run inserts a job, that job is the plannedJob
for some emoji; only its not_before matters to the claim and it does not
depend on the emoji. -/
theorem plan_post_step_insert (jobs : List Job)
    (actions : List BotManager.ActionRow) (bots : List BotManager.BotRow)
    (access : List BotManager.ChatAccessRow) (posts : List PostRow) (ch : Int)
    (idx : Nat) (row : PostRow) (base : Int) (dev : Nat)
    (cooldown now newId : Nat) (randSkip : Bool) (targetDraw : Int)
    (choiceIdx : Nat) (j : Job)
    (hres : (plan_post_step jobs actions bots access posts ch idx row base dev
        cooldown now newId randSkip targetDraw choiceIdx).1 =
      jobsAfterDelete jobs ch row.msg_id ++ [j]) :
    ∃ emo, j = plannedJob (jobsAfterDelete jobs ch row.msg_id) actions ch
      row.msg_id idx emo cooldown now newId := by
  simp only [plan_post_step] at hres
  split at hres
  · exact absurd hres no_self_append
  · split at hres
    · exact absurd hres filter_ne_append
    · split at hres
      · exact absurd hres filter_ne_append
      · split at hres
        · exact absurd hres no_self_append
        · split at hres
          · exact absurd hres no_self_append
          · split at hres
            · exact absurd hres no_self_append
            · have h2 := congrArg
                (List.drop (jobsAfterDelete jobs ch row.msg_id).length) hres
              simp only [List.drop_left] at h2
              simp only [List.cons.injEq, and_true] at h2
              exact ⟨_, h2.symm⟩

/-- Claim C5 fails on the code: rebuild_reaction_plan deletes the queued react
jobs of the post before computing the cooldown cursor, so a queued job at
not_before T+300 does not chain.  With the last real reaction at T = 1000,
cooldown 300 and now = 1400, the replacement job is scheduled at 1400, while
the claimed formula over the pre-call tables gives 1600, and 1400 < T + 600. -/
theorem C5_plan_not_before_counterexample :
    (plan_post_step cJobs cActions cBots ([] : List BotManager.ChatAccessRow)
        cPosts 1 0 cPost 10 0 300 1400 2 false 0 0).1 = [cInserted] ∧
    cInserted.not_before = some 1400 ∧
    claimNotBefore cJobs cActions 1 5 300 1400 = 1600 ∧
    (1400 : Nat) < 1000 + 600 := by
  refine ⟨by decide, by decide, by decide, by decide⟩

/-- Claim C5 (amended): the planner first deletes the queued react jobs of the
post, then schedules the new job at
not_before = cooldownNotBefore(now, cooldown, max(lastRealActionTime, max
not_before among the jobs that survived the deletion)); hence, for a positive
cooldown, the new job is spaced at least cooldown after the last real reaction
and after any surviving (reserved) scheduled job, but a pre-existing queued
not_before does not chain because its row was deleted. -/
theorem C5_plan_not_before_amended (jobs : List Job)
    (actions : List BotManager.ActionRow) (bots : List BotManager.BotRow)
    (access : List BotManager.ChatAccessRow) (posts : List PostRow) (ch : Int)
    (idx : Nat) (row : PostRow) (base : Int) (dev : Nat)
    (cooldown now newId : Nat) (randSkip : Bool) (targetDraw : Int)
    (choiceIdx : Nat) (j : Job)
    (hres : (plan_post_step jobs actions bots access posts ch idx row base dev
        cooldown now newId randSkip targetDraw choiceIdx).1 =
      jobsAfterDelete jobs ch row.msg_id ++ [j]) :
    j.not_before = cooldownNotBefore now cooldown
      (optMax (lastActionTime actions ch row.msg_id)
        (maxNotBefore (jobsAfterDelete jobs ch row.msg_id) ch row.msg_id)) ∧
    (0 < cooldown → ∀ t, lastActionTime actions ch row.msg_id = some t →
      ∃ v, j.not_before = some v ∧ t + cooldown ≤ v ∧ now ≤ v) ∧
    (0 < cooldown →
      ∀ u, maxNotBefore (jobsAfterDelete jobs ch row.msg_id) ch row.msg_id = some u →
      ∃ v, j.not_before = some v ∧ u + cooldown ≤ v ∧ now ≤ v) := by
  obtain ⟨emo, hj⟩ := plan_post_step_insert jobs actions bots access posts ch
    idx row base dev cooldown now newId randSkip targetDraw choiceIdx j hres
  subst hj
  refine ⟨rfl, ?_, ?_⟩
  · intro hc t htl
    show ∃ v, cooldownNotBefore now cooldown
      (optMax (lastActionTime actions ch row.msg_id)
        (maxNotBefore (jobsAfterDelete jobs ch row.msg_id) ch row.msg_id)) =
        some v ∧ t + cooldown ≤ v ∧ now ≤ v
    rw [htl]
    cases hn : maxNotBefore (jobsAfterDelete jobs ch row.msg_id) ch row.msg_id with
    | none =>
      refine ⟨max now (t + cooldown), ?_, ?_, ?_⟩
      · unfold cooldownNotBefore optMax
        rw [if_neg (by omega)]
      · omega
      · omega
    | some u =>
      refine ⟨max now (max t u + cooldown), ?_, ?_, ?_⟩
      · unfold cooldownNotBefore optMax
        rw [if_neg (by omega)]
      · have : t ≤ max t u := le_max_left _ _
        omega
      · omega
  · intro hc u hnb
    show ∃ v, cooldownNotBefore now cooldown
      (optMax (lastActionTime actions ch row.msg_id)
        (maxNotBefore (jobsAfterDelete jobs ch row.msg_id) ch row.msg_id)) =
        some v ∧ u + cooldown ≤ v ∧ now ≤ v
    rw [hnb]
    cases hl : lastActionTime actions ch row.msg_id with
    | none =>
      refine ⟨max now (u + cooldown), ?_, ?_, ?_⟩
      · unfold cooldownNotBefore optMax
        rw [if_neg (by omega)]
      · omega
      · omega
    | some t =>
      refine ⟨max now (max t u + cooldown), ?_, ?_, ?_⟩
      · unfold cooldownNotBefore optMax
        rw [if_neg (by omega)]
      · have : u ≤ max t u := le_max_right _ _
        omega
      · omega

theorem C5_plan_not_before_amended_witness :
    ((plan_post_step cJobs cActions cBots ([] : List BotManager.ChatAccessRow)
        cPosts 1 0 cPost 10 0 300 1400 2 false 0 0).1 =
      jobsAfterDelete cJobs 1 cPost.msg_id ++ [cInserted]) ∧
    (cInserted.not_before = cooldownNotBefore 1400 300
      (optMax (lastActionTime cActions 1 cPost.msg_id)
        (maxNotBefore (jobsAfterDelete cJobs 1 cPost.msg_id) 1 cPost.msg_id)) ∧
     (0 < 300 → ∀ t, lastActionTime cActions 1 cPost.msg_id = some t →
       ∃ v, cInserted.not_before = some v ∧ t + 300 ≤ v ∧ 1400 ≤ v) ∧
     (0 < 300 →
       ∀ u, maxNotBefore (jobsAfterDelete cJobs 1 cPost.msg_id) 1 cPost.msg_id = some u →
       ∃ v, cInserted.not_before = some v ∧ u + 300 ≤ v ∧ 1400 ≤ v)) :=
  ⟨by decide,
   C5_plan_not_before_amended cJobs cActions cBots
     ([] : List BotManager.ChatAccessRow) cPosts 1 0 cPost 10 0 300 1400 2
     false 0 0 cInserted (by decide)⟩

end Planner

namespace ProxyManager

theorem go_cons (st : ProxyState) (rot : Int → Option String)
    (s : Option String) (now maxPerIp : Nat) (p : Int) (rest : List Int) :
    get_available_proxy_go st rot s now maxPerIp (p :: rest) =
      match slotIp st p with
      | none => get_available_proxy_go st rot s now maxPerIp rest
      | some ip =>
        if count_recent_sessions st.sessions ip now < maxPerIp then
          (some { proxy_id := p, ip := ip, rotated := false },
           { st with sessions := recordUsage st.sessions ip s now })
        else
          match rot p with
          | some newIp =>
            (some { proxy_id := p, ip := newIp, rotated := true },
             { applyRotation st p newIp now with
               sessions := recordUsage (applyRotation st p newIp now).sessions
                 newIp s now })
          | none => get_available_proxy_go st rot s now maxPerIp rest := rfl

/-- Claim C8 fails on the code: after a successful rotation the slot is
assigned without re-checking the rotated ip, so the returned slot can sit on
an ip already at the per-hour identity limit.  With limit 2, slot 7 on ip X
used by two identities, and a rotation landing on ip Y also used by two
identities in the last hour, the call returns the slot on Y. -/
theorem C8_rotated_over_limit_counterexample :
    (get_available_proxy c8State (fun _ => some "Y") [7] (some "s3") 2000 2).1 =
      some { proxy_id := 7, ip := "Y", rotated := true } ∧
    2 ≤ count_recent_sessions c8State.sessions "Y" 2000 := by
  refine ⟨by decide, by decide⟩

/-- Claim C8 (amended): a slot is assigned without rotation only when its
cached external ip has strictly fewer than the limit of distinct identities in
the trailing hour; and a rotated assignment happens only when the cached ip
was at or above the limit, the slot then being handed out on the rotation
result without a further count check. -/
theorem C8_get_available_proxy_amended :
    ∀ (pids : List Int) (st : ProxyState) (rot : Int → Option String)
      (s : Option String) (now maxPerIp : Nat) (pid : Int) (ip : String),
      ((get_available_proxy_go st rot s now maxPerIp pids).1 =
          some { proxy_id := pid, ip := ip, rotated := false } →
        count_recent_sessions st.sessions ip now < maxPerIp) ∧
      ((get_available_proxy_go st rot s now maxPerIp pids).1 =
          some { proxy_id := pid, ip := ip, rotated := true } →
        ∃ ip0, slotIp st pid = some ip0 ∧
          maxPerIp ≤ count_recent_sessions st.sessions ip0 now ∧
          rot pid = some ip) := by
  intro pids
  induction pids with
  | nil =>
    intro st rot s now maxPerIp pid ip
    constructor <;> intro h <;> exact Option.noConfusion h
  | cons p rest ih =>
    intro st rot s now maxPerIp pid ip
    constructor
    · intro h
      rw [go_cons] at h
      cases hsip : slotIp st p with
      | none =>
        rw [hsip] at h
        exact (ih st rot s now maxPerIp pid ip).1 h
      | some ip1 =>
        rw [hsip] at h
        have h' : (if count_recent_sessions st.sessions ip1 now < maxPerIp then
              (some { proxy_id := p, ip := ip1, rotated := false },
               { st with sessions := recordUsage st.sessions ip1 s now })
            else
              match rot p with
              | some newIp =>
                (some { proxy_id := p, ip := newIp, rotated := true },
                 { applyRotation st p newIp now with
                   sessions := recordUsage (applyRotation st p newIp now).sessions
                     newIp s now })
              | none => get_available_proxy_go st rot s now maxPerIp rest).1 =
              some { proxy_id := pid, ip := ip, rotated := false } := h
        by_cases hcnt : count_recent_sessions st.sessions ip1 now < maxPerIp
        · rw [if_pos hcnt] at h'
          have h2 : some (AssignResult.mk p ip1 false) =
              some (AssignResult.mk pid ip false) := h'
          simp only [Option.some.injEq, AssignResult.mk.injEq, and_true] at h2
          rw [← h2.2]
          exact hcnt
        · rw [if_neg hcnt] at h'
          cases hrot : rot p with
          | some newIp =>
            rw [hrot] at h'
            have h2 : some (AssignResult.mk p newIp true) =
                some (AssignResult.mk pid ip false) := h'
            simp at h2
          | none =>
            rw [hrot] at h'
            exact (ih st rot s now maxPerIp pid ip).1 h'
    · intro h
      rw [go_cons] at h
      cases hsip : slotIp st p with
      | none =>
        rw [hsip] at h
        exact (ih st rot s now maxPerIp pid ip).2 h
      | some ip1 =>
        rw [hsip] at h
        have h' : (if count_recent_sessions st.sessions ip1 now < maxPerIp then
              (some { proxy_id := p, ip := ip1, rotated := false },
               { st with sessions := recordUsage st.sessions ip1 s now })
            else
              match rot p with
              | some newIp =>
                (some { proxy_id := p, ip := newIp, rotated := true },
                 { applyRotation st p newIp now with
                   sessions := recordUsage (applyRotation st p newIp now).sessions
                     newIp s now })
              | none => get_available_proxy_go st rot s now maxPerIp rest).1 =
              some { proxy_id := pid, ip := ip, rotated := true } := h
        by_cases hcnt : count_recent_sessions st.sessions ip1 now < maxPerIp
        · rw [if_pos hcnt] at h'
          have h2 : some (AssignResult.mk p ip1 false) =
              some (AssignResult.mk pid ip true) := h'
          simp at h2
        · rw [if_neg hcnt] at h'
          cases hrot : rot p with
          | some newIp =>
            rw [hrot] at h'
            have h2 : some (AssignResult.mk p newIp true) =
                some (AssignResult.mk pid ip true) := h'
            simp only [Option.some.injEq, AssignResult.mk.injEq, and_true] at h2
            obtain ⟨hp, hipn⟩ := h2
            subst hp
            refine ⟨ip1, hsip, by omega, by rw [hrot, hipn]⟩
          | none =>
            rw [hrot] at h'
            exact (ih st rot s now maxPerIp pid ip).2 h'

theorem C8_get_available_proxy_amended_witness :
    ((get_available_proxy_go c8EmptyState (fun _ => none) (some "s1") 2000 2 [7]).1 =
        some { proxy_id := 7, ip := "X", rotated := false } ∧
      count_recent_sessions c8EmptyState.sessions "X" 2000 < 2) ∧
    ((get_available_proxy_go c8State (fun _ => some "Y") (some "s3") 2000 2 [7]).1 =
        some { proxy_id := 7, ip := "Y", rotated := true } ∧
      ∃ ip0, slotIp c8State 7 = some ip0 ∧
        2 ≤ count_recent_sessions c8State.sessions ip0 2000 ∧
        (fun _ : Int => some "Y") 7 = some "Y") :=
  ⟨⟨by decide, (C8_get_available_proxy_amended [7] c8EmptyState (fun _ => none)
      (some "s1") 2000 2 7 "X").1 (by decide)⟩,
   ⟨by decide, (C8_get_available_proxy_amended [7] c8State (fun _ => some "Y")
      (some "s3") 2000 2 7 "Y").2 (by decide)⟩⟩

/-- Claim C9 fails on the code: get_available_proxy never consults the ban
status, so a slot whose cached external ip is recorded BAN with an unexpired
lift time is handed out with no rotation attempt as soon as its trailing-hour
identity count is under the limit. -/
theorem C9_banned_ip_counterexample :
    (get_available_proxy c9State (fun _ => none) [7] (some "s1") 2000 2).1 =
      some { proxy_id := 7, ip := "X", rotated := false } ∧
    (get_ip_status c9State.history "X" 2000).1 = some "BAN" := by
  refine ⟨by decide, by decide⟩

/-- Claim C9 (amended): within get_valid_proxy_ip the check holds: an ip is
handed out without rotation only when, after lifting expired bans, its
recorded status is not BAN and it differs from the last ip recorded for the
slot; get_available_proxy however checks only the usage count. -/
theorem C9_gvp_check_amended (hist : List IpHistoryRow) (pid : Int)
    (ip : String) (now : Nat) (h2 : List IpHistoryRow)
    (h : gvp_check hist pid ip now = (GvpDecision.handout, h2)) :
    ¬((get_ip_status hist ip now).1 = some "BAN") ∧
    ¬(get_last_ip_for_proxy (remove_expired_bans hist now) pid = some ip) := by
  unfold gvp_check at h
  by_cases h1 : ((get_ip_status hist ip now).1 == some "BAN") = true
  · rw [if_pos h1] at h
    simp at h
  · rw [if_neg h1] at h
    by_cases hlast :
        (get_last_ip_for_proxy (get_ip_status hist ip now).2 pid == some ip) = true
    · rw [if_pos hlast] at h
      simp at h
    · constructor
      · simpa using h1
      · have he : (get_ip_status hist ip now).2 = remove_expired_bans hist now := rfl
        rw [← he]
        simpa using hlast

theorem C9_gvp_check_amended_witness :
    (gvp_check c9GoodHist 7 "X" 1000 =
        (GvpDecision.handout, add_ip (remove_expired_bans c9GoodHist 1000) 7 "X" 1000)) ∧
    (¬((get_ip_status c9GoodHist "X" 1000).1 = some "BAN") ∧
     ¬(get_last_ip_for_proxy (remove_expired_bans c9GoodHist 1000) 7 = some "X")) :=
  ⟨by decide, C9_gvp_check_amended c9GoodHist 7 "X" 1000
    (add_ip (remove_expired_bans c9GoodHist 1000) 7 "X" 1000) (by decide)⟩

theorem removeRowSet_fields (ip s : String) (r : IpSession) :
    (removeRowSet ip s r).ip_address = r.ip_address ∧
    (removeRowSet ip s r).session_name = r.session_name ∧
    (removeRowSet ip s r).acquired_at = r.acquired_at := by
  unfold removeRowSet
  split <;> exact ⟨rfl, rfl, rfl⟩

/-- Claim C10 fails on the code: release only flips is_active, it does not
erase the acquired_at record, and count_recent_sessions (the count the
assignment limit consults) ignores is_active, so the released identity still
counts toward the trailing-hour limit. -/
theorem C10_release_counterexample :
    count_recent_sessions (release_proxy_ip c10Sessions (some "X") (some "s1"))
      "X" 2000 = 1 ∧
    count_recent_sessions c10Sessions "X" 2000 = 1 ∧
    count_active_sessions (release_proxy_ip c10Sessions (some "X") (some "s1"))
      "X" = 0 := by
  refine ⟨by decide, by decide, by decide⟩

/-- Claim C10 (amended): release marks the (ip, identity) association inactive
so the active-session count drops, but the trailing-hour distinct-identity
count that get_available_proxy consults is unchanged by a release; the
identity stops counting only when the hour passes or the row is purged. -/
theorem C10_release_amended :
    (∀ (sess : List IpSession) (ip s ip' : String) (now : Nat),
      count_recent_sessions (remove_active_session sess ip s) ip' now =
        count_recent_sessions sess ip' now) ∧
    (∀ (sess : List IpSession) (ip s : String),
      ∀ r ∈ remove_active_session sess ip s,
        r.ip_address = ip → r.session_name = s → r.is_active = false) ∧
    (∀ (sess : List IpSession) (ip s : String),
      count_active_sessions (remove_active_session sess ip s) ip =
        (sess.filter fun r => r.ip_address == ip && r.is_active &&
          !(r.session_name == s)).length) := by
  refine ⟨?_, ?_, ?_⟩
  · intro sess ip s ip' now
    unfold count_recent_sessions remove_active_session
    rw [List.filter_map, List.map_map]
    have e1 : ((fun r : IpSession =>
        r.ip_address == ip' && decide (now - 3600 ≤ r.acquired_at)) ∘ removeRowSet ip s) =
        fun r : IpSession => r.ip_address == ip' && decide (now - 3600 ≤ r.acquired_at) := by
      funext r
      simp only [Function.comp]
      rw [(removeRowSet_fields ip s r).1, (removeRowSet_fields ip s r).2.2]
    have e2 : ((fun r : IpSession => r.session_name) ∘ removeRowSet ip s) =
        fun r : IpSession => r.session_name := by
      funext r
      simp only [Function.comp]
      rw [(removeRowSet_fields ip s r).2.1]
    rw [e1, e2]
  · intro sess ip s r hr hip hs
    unfold remove_active_session at hr
    obtain ⟨r0, hr0, rfl⟩ := List.mem_map.mp hr
    by_cases hc : (r0.ip_address == ip && r0.session_name == s) = true
    · unfold removeRowSet
      rw [if_pos hc]
    · have hip0 : r0.ip_address = ip := by
        have he := (removeRowSet_fields ip s r0).1
        rw [he] at hip
        exact hip
      have hs0 : r0.session_name = s := by
        have he := (removeRowSet_fields ip s r0).2.1
        rw [he] at hs
        exact hs
      exact absurd (by simp [hip0, hs0]) hc
  · intro sess ip s
    unfold count_active_sessions remove_active_session
    rw [List.filter_map, List.length_map]
    congr 1
    apply List.filter_congr
    intro r _
    simp only [Function.comp]
    by_cases hc : (r.ip_address == ip && r.session_name == s) = true
    · have hip : r.ip_address = ip := by
        simp only [Bool.and_eq_true, beq_iff_eq] at hc
        exact hc.1
      have hs : r.session_name = s := by
        simp only [Bool.and_eq_true, beq_iff_eq] at hc
        exact hc.2
      unfold removeRowSet
      rw [if_pos hc]
      simp [hip, hs]
    · unfold removeRowSet
      rw [if_neg hc]
      cases hipb : r.ip_address == ip
      · simp
      · cases hsb : r.session_name == s
        · simp [hsb]
        · exact absurd (by rw [hipb, hsb]; rfl) hc

theorem C10_release_amended_witness :
    (count_recent_sessions (remove_active_session c10Sessions "X" "s1") "X" 2000 =
        count_recent_sessions c10Sessions "X" 2000) ∧
    (({ ip_address := "X", session_name := "s1", acquired_at := 1000,
        is_active := false } : IpSession) ∈
        remove_active_session c10Sessions "X" "s1" ∧
      ({ ip_address := "X", session_name := "s1", acquired_at := 1000,
         is_active := false } : IpSession).is_active = false) ∧
    (count_active_sessions (remove_active_session c10Sessions "X" "s1") "X" =
      (c10Sessions.filter fun r => r.ip_address == "X" && r.is_active &&
        !(r.session_name == "s1")).length) :=
  ⟨C10_release_amended.1 c10Sessions "X" "s1" "X" 2000,
   ⟨by decide, C10_release_amended.2.1 c10Sessions "X" "s1"
      { ip_address := "X", session_name := "s1", acquired_at := 1000,
        is_active := false } (by decide) (by decide) (by decide)⟩,
   C10_release_amended.2.2 c10Sessions "X" "s1"⟩

end ProxyManager
